import Mathlib

/-!
Verification development for the Phone Investigation System.

This file gives a shallow embedding, in Lean 4, of the investigation
orchestration core found in `src/app/main.py` (rate limiter, TTL cache,
pattern analyzer, rule engine, investigation modules, module manager,
orchestrator routes) together with the per-module rate limiter of
`src/app/modules/base_module.py`, and proves properties of these
definitions.

Modelling conventions:
- `time.time()` values are rational numbers (`ℚ`), passed explicitly.
- Python dictionaries keyed by strings become functions `String → Option _`
  or association lists.
- External libraries (phonenumbers, pytz) are held at the boundary: the
  outcome of `phonenumbers.parse` and `is_valid_number` is a three-way
  `ParseOutcome` parameter, and looked-up carrier or timezone data is an
  opaque record parameter.
- Shannon entropy is real valued (`ℝ`), mirroring the float computation.
- Telemetry logging is omitted: in the source it appends to bounded lists
  and never influences any returned value or any control decision of the
  components modelled here.
-/

namespace PhoneInvest

/-! ## Configuration (class Config, src/app/main.py lines 30 to 36) -/

def RATE_LIMIT_REQUESTS : ℕ := 10

def RATE_LIMIT_PERIOD : ℚ := 60

def CACHE_EXPIRY : ℚ := 300

/-! ## RateLimiter (src/app/main.py lines 41 to 53)

`self.requests` is a `defaultdict(list)` from identifier to a list of
admission timestamps; `is_allowed` prunes timestamps older than the period,
stores the pruned list, and appends the current time exactly when the
pruned count is strictly below the limit. -/

structure RateLimiter where
  requests : String → List ℚ

def RateLimiter.init : RateLimiter := ⟨fun _ => []⟩

def RateLimiter.pruned (rl : RateLimiter) (identifier : String) (now : ℚ) : List ℚ :=
  (rl.requests identifier).filter (fun req_time => now - req_time < RATE_LIMIT_PERIOD)

def RateLimiter.is_allowed (rl : RateLimiter) (identifier : String) (now : ℚ) :
    RateLimiter × Bool :=
  let kept := rl.pruned identifier now
  if kept.length < RATE_LIMIT_REQUESTS then
    (⟨fun k => if k = identifier then kept ++ [now] else rl.requests k⟩, true)
  else
    (⟨fun k => if k = identifier then kept else rl.requests k⟩, false)

/-- Runs a sequence of `is_allowed` calls, each given as an identifier
together with the clock value at the call. -/
def RateLimiter.runCalls (rl : RateLimiter) (calls : List (String × ℚ)) : RateLimiter :=
  calls.foldl (fun acc c => (acc.is_allowed c.1 c.2).1) rl

/-! ## BaseModule.check_rate_limit (src/app/modules/base_module.py lines 15 to 24)

The per-module limiter keeps `self.request_times`; it prunes, stores the
pruned list, raises `RateLimitException` when the pruned count has reached
the limit, and otherwise appends the current time and returns `True`. -/

def BaseModule.check_rate_limit (name : String) (rate_limit : ℕ) (rate_period : ℚ)
    (request_times : List ℚ) (now : ℚ) : List ℚ × Except String Bool :=
  let kept := request_times.filter (fun t => now - t < rate_period)
  if kept.length ≥ rate_limit then
    (kept, Except.error ("Rate limit exceeded for " ++ name))
  else
    (kept ++ [now], Except.ok true)

def BaseModule.runChecks (name : String) (rate_limit : ℕ) (rate_period : ℚ)
    (request_times : List ℚ) (nows : List ℚ) : List ℚ :=
  nows.foldl (fun acc now => (BaseModule.check_rate_limit name rate_limit rate_period acc now).1) request_times

/-! ## Cache (src/app/main.py lines 76 to 92)

`self.cache` maps a key to a pair of the stored data and its absolute
expiry instant. `get` removes an expired entry as a side effect; `set`
overwrites unconditionally, with the expiry clock reset from the call
time, defaulting the time to live to `CACHE_EXPIRY`. -/

structure Cache (α : Type) where
  cache : String → Option (α × ℚ)

def Cache.empty {α : Type} : Cache α := ⟨fun _ => none⟩

def Cache.get {α : Type} (c : Cache α) (key : String) (now : ℚ) : Option α × Cache α :=
  match c.cache key with
  | some (data, expiry) =>
      if now < expiry then (some data, c)
      else (none, ⟨fun k => if k = key then none else c.cache k⟩)
  | none => (none, c)

def Cache.set {α : Type} (c : Cache α) (key : String) (data : α)
    (expiry : Option ℚ) (now : ℚ) : Cache α :=
  let e := expiry.getD CACHE_EXPIRY
  ⟨fun k => if k = key then some (data, now + e) else c.cache k⟩

/-! ## PatternAnalyzer (src/app/main.py lines 97 to 147) -/

/-- Number of occurrences in `s` of the character with code point `x`,
modelling `s.count(chr(x))`. -/
def countChar (s : List Char) (x : ℕ) : ℕ :=
  (s.filter (fun c => c.toNat = x)).length

/-- Shannon entropy of a string (src/app/main.py lines 98 to 108): the sum,
over the 256 code points `chr(0)` to `chr(255)`, of `-p * log2 p` for the
occurrence frequency `p` of that character, skipping frequencies equal to
zero; an empty string has entropy `0`.  For a nonempty `s` the frequency
`count / len` is strictly positive exactly when the count is. -/
noncomputable def calculate_entropy (s : List Char) : ℝ :=
  if s.length = 0 then 0
  else
    ∑ x ∈ Finset.range 256,
      (if 0 < countChar s x then
        -(((countChar s x : ℝ) / (s.length : ℝ)) *
          Real.logb 2 ((countChar s x : ℝ) / (s.length : ℝ)))
      else 0)

/-- Tests whether `pat` occurs as a contiguous substring of the second
argument, modelling the Python expression `pat in s`. -/
def isSubstringOf (pat : List Char) : List Char → Bool
  | [] => pat.isPrefixOf []
  | c :: rest => pat.isPrefixOf (c :: rest) || isSubstringOf pat rest

/-- Digit value of a digit character, modelling `int(c)`. -/
def digitVal (c : Char) : ℕ := c.toNat - 48

/-- Model of `re.sub(r'\D', '', phone_number)`: keep the decimal digits. -/
def stripNonDigits (phone_number : String) : List Char :=
  phone_number.toList.filter Char.isDigit

/-- Sequential three-digit runs (src/app/main.py lines 134 to 147): for
every window of three consecutive positions, record the window when it is
ascending or descending by one. -/
def find_sequences (digits : List Char) : List String :=
  (List.range (digits.length - 2)).filterMap fun i =>
    match digits.get? i, digits.get? (i + 1), digits.get? (i + 2) with
    | some a, some b, some c =>
        if (digitVal a + 1 = digitVal b ∧ digitVal b + 1 = digitVal c) ∨
           (digitVal a = digitVal b + 1 ∧ digitVal b = digitVal c + 1) then
          some (String.mk [a, b, c])
        else none
    | _, _, _ => none

def virtual_patterns_three : List String :=
  ["123", "000", "111", "222", "333", "444", "555", "666", "777", "888", "999"]

/-- Pattern findings (src/app/main.py lines 110 to 132): repeated digits
whose count exceeds half the length (Python float division, exact over
`ℚ`), sequential runs, and membership of a three-digit virtual pattern.
`Counter` iterates distinct characters in first-occurrence order, matching
`List.eraseDups`. -/
def analyze_phone_pattern (phone_number : String) : List String :=
  let digits := stripNonDigits phone_number
  let repeated_digits :=
    digits.eraseDups.filter (fun d => ((digits.count d : ℚ)) > (digits.length : ℚ) / 2)
  let p1 : List String :=
    if repeated_digits.isEmpty then []
    else ["Repeated digits: " ++
          String.intercalate ", " (repeated_digits.map (fun d => String.mk [d]))]
  let sequences := find_sequences digits
  let p2 : List String :=
    if sequences.isEmpty then []
    else ["Sequences found: " ++ String.intercalate ", " sequences]
  let p3 : List String :=
    if virtual_patterns_three.any (fun p => isSubstringOf p.toList digits) then
      ["Contains virtual number patterns"]
    else []
  p1 ++ p2 ++ p3

/-! ## AIReasoningEngine (src/app/main.py lines 150 to 227)

The rule table is loaded from `modules/reasoning_rules.json` when that
file exists and otherwise defaults to the table of `load_rules`; it is
therefore configuration data and `analyze` is parametric in it. -/

structure ReasoningRules where
  high_entropy_threshold : ℝ
  high_entropy_message : String
  high_entropy_risk : String
  repeated_digits_message : String
  repeated_digits_risk : String
  sequential_digits_message : String
  sequential_digits_risk : String
  toll_free_patterns : List String
  toll_free_message : String
  toll_free_risk : String
  premium_rate_patterns : List String
  premium_rate_message : String
  premium_rate_risk : String

/-- Default rule table (src/app/main.py lines 161 to 186). -/
noncomputable def defaultRules : ReasoningRules where
  high_entropy_threshold := 7 / 2
  high_entropy_message := "High entropy detected - may be a generated or virtual number"
  high_entropy_risk := "medium"
  repeated_digits_message := "Repeated digit pattern detected - may be a virtual number"
  repeated_digits_risk := "low"
  sequential_digits_message := "Sequential digit pattern detected - may be a virtual number"
  sequential_digits_risk := "low"
  toll_free_patterns := ["800", "888", "877", "866", "855", "844", "833"]
  toll_free_message := "Toll-free number detected"
  toll_free_risk := "low"
  premium_rate_patterns := ["900", "976"]
  premium_rate_message := "Premium rate number detected"
  premium_rate_risk := "high"

structure AnalysisResult where
  insights : List String
  entropy : ℝ
  risk_level : String
  pattern_analysis : List String

/-- AI reasoning (src/app/main.py lines 188 to 227): the entropy rule fires
on entropy strictly above the threshold; the toll-free and premium-rate
scans each stop at the first pattern occurring in the digit string and
append their message once; the overall risk is `high` when `"high"` was
collected, else `medium` when `"medium"` was collected, else `low`. -/
noncomputable def AIReasoningEngine.analyze (rules : ReasoningRules)
    (phone_number : String) : AnalysisResult :=
  let digits := stripNonDigits phone_number
  let entropy := calculate_entropy digits
  let entFired := rules.high_entropy_threshold < entropy
  let tollMatch := rules.toll_free_patterns.find? (fun p => isSubstringOf p.toList digits)
  let premMatch := rules.premium_rate_patterns.find? (fun p => isSubstringOf p.toList digits)
  let insights :=
    (if entFired then [rules.high_entropy_message] else []) ++
    (if tollMatch.isSome then [rules.toll_free_message] else []) ++
    (if premMatch.isSome then [rules.premium_rate_message] else [])
  let risks :=
    (if entFired then [rules.high_entropy_risk] else []) ++
    (if tollMatch.isSome then [rules.toll_free_risk] else []) ++
    (if premMatch.isSome then [rules.premium_rate_risk] else [])
  let overall_risk :=
    if risks.contains "high" then "high"
    else if risks.contains "medium" then "medium"
    else "low"
  { insights := insights
    entropy := entropy
    risk_level := overall_risk
    pattern_analysis := analyze_phone_pattern phone_number }

/-! ## InvestigationModule (src/app/main.py lines 279 to 311)

Each module instance carries a `rate_limited` flag and a reset instant.
`check_rate_limit` raises exactly when the flag is set and the reset
instant lies in the future; `handle_rate_limit` is the only writer of the
flag; `execute` runs the check, then the module body, and re-raises any
exception after telemetry logging (the logging itself does not change the
outcome and is omitted). -/

structure ModuleRateState where
  rate_limited : Bool
  rate_limit_reset : ℚ

def ModuleRateState.init : ModuleRateState where
  rate_limited := false
  rate_limit_reset := 0

def InvestigationModule.check_rate_limit (name : String) (st : ModuleRateState)
    (now : ℚ) : Except String Bool :=
  if st.rate_limited ∧ now < st.rate_limit_reset then
    Except.error ("Module " ++ name ++ " is rate limited. Try again later.")
  else Except.ok true

def InvestigationModule.handle_rate_limit (_st : ModuleRateState) (now : ℚ)
    (reset_time : ℚ) : ModuleRateState where
  rate_limited := true
  rate_limit_reset := now + reset_time

/-- `execute` for a module whose body `body` is the outcome of `_execute`
on the given phone number: the rate-limit check runs first and its
exception propagates; otherwise the result of the body propagates, errors
re-raised unchanged. -/
def InvestigationModule.execute {α : Type} (name : String) (st : ModuleRateState)
    (now : ℚ) (body : Except String α) : Except String α :=
  match InvestigationModule.check_rate_limit name st now with
  | Except.error e => Except.error e
  | Except.ok _ => body

/-- Outcome of `phonenumbers.parse` plus `phonenumbers.is_valid_number` on
an input, abstracting the external phonenumbers library: parsing may raise
`NumberParseException`, or produce a number that is invalid, or produce a
valid number. -/
inductive ParseOutcome where
  | unparsable
  | parsedInvalid
  | parsedValid
deriving DecidableEq

/-! ## PhoneNumberModule (src/app/main.py lines 314 to 354) -/

/-- External data resolved for a valid number (geocoder, carrier, pytz),
abstracted at the library boundary. -/
structure PhoneInfoExternal where
  country : String
  operatorName : String
  timezones : List String
  currentTime : String
  numberType : String

inductive PhoneInfoReturn where
  | errorField (msg : String)
  | info (country operatorName : String) (timezones : List String)
      (currentTime : String) (numberType : String)
deriving DecidableEq

/-- Body of `PhoneNumberModule._execute`: `phonenumbers.parse` raises on an
unparsable input and that exception propagates out of `_execute`; a parsed
but invalid number returns the dictionary with the error field; a valid
number returns the looked-up data. -/
def PhoneNumberModule.body (po : ParseOutcome) (ext : PhoneInfoExternal) :
    Except String PhoneInfoReturn :=
  match po with
  | ParseOutcome.unparsable => Except.error "NumberParseException"
  | ParseOutcome.parsedInvalid => Except.ok (PhoneInfoReturn.errorField "Invalid phone number")
  | ParseOutcome.parsedValid =>
      Except.ok (PhoneInfoReturn.info ext.country ext.operatorName ext.timezones
        ext.currentTime ext.numberType)

/-! ## SpamRiskModule (src/app/main.py lines 412 to 471) -/

def known_spam_prefixes : List String :=
  ["800", "900", "976", "855", "866", "877", "888"]

def virtual_patterns_four : List String :=
  ["1234", "1111", "2222", "3333", "4444", "5555", "6666", "7777", "8888", "9999", "0000"]

structure SpamRiskResult where
  risk_score : ℕ
  risk_level : String
  reasons : List String
  description : String
deriving DecidableEq

def SpamRiskModule.get_risk_level (score : ℕ) : String :=
  if score < 20 then "Low"
  else if score < 50 then "Medium"
  else "High"

def SpamRiskModule.get_risk_description (score : ℕ) : String :=
  if score < 20 then "This number appears to be low risk."
  else if score < 50 then "This number shows some risk factors. Exercise caution."
  else "This number appears to be high risk. Avoid if possible."

/-- Body of `SpamRiskModule._execute`: additive score of 30 for a parsed
but invalid number or 50 for an unparsable one, plus 20 on the first known
spam prefix starting the digit string, plus 15 on any four-digit virtual
pattern occurring in it; a total of 0 becomes the default 10; the reported
score is `min 100` of the total while the level and description use the
unclamped total. -/
def SpamRiskModule.body (po : ParseOutcome) (phone_number : String) : SpamRiskResult :=
  let digits := stripNonDigits phone_number
  let s1 : ℕ :=
    match po with
    | ParseOutcome.unparsable => 50
    | ParseOutcome.parsedInvalid => 30
    | ParseOutcome.parsedValid => 0
  let r1 : List String :=
    match po with
    | ParseOutcome.unparsable => ["Cannot parse phone number"]
    | ParseOutcome.parsedInvalid => ["Invalid phone number format"]
    | ParseOutcome.parsedValid => []
  let prefixMatch := known_spam_prefixes.find? (fun p => p.toList.isPrefixOf digits)
  let s2 := s1 + (if prefixMatch.isSome then 20 else 0)
  let r2 := r1 ++
    (match prefixMatch with
     | some p => ["Matches known spam prefix: " ++ p]
     | none => [])
  let virtualHit := virtual_patterns_four.any (fun p => isSubstringOf p.toList digits)
  let s3 := s2 + (if virtualHit then 15 else 0)
  let r3 := r2 ++ (if virtualHit then ["Virtual number pattern detected"] else [])
  let risk_score := if s3 = 0 then 10 else s3
  { risk_score := min 100 risk_score
    risk_level := SpamRiskModule.get_risk_level risk_score
    reasons := r3
    description := SpamRiskModule.get_risk_description risk_score }

/-! ## ModuleManager (src/app/main.py lines 489 to 519)

`execute_all` iterates the registered modules in order, catching any
exception from `module.execute` and recording it as that module's
`error` payload, then appends the AI analysis entry.  A module is
abstracted as its name together with the outcome its `execute` produces
for a phone number. -/

inductive BundleEntry where
  | moduleOk (data : String)
  | moduleErr (msg : String)
  | aiAnalysis (a : AnalysisResult)

def Bundle : Type := List (String × BundleEntry)

def catchEntry (r : Except String String) : BundleEntry :=
  match r with
  | Except.ok data => BundleEntry.moduleOk data
  | Except.error e => BundleEntry.moduleErr e

noncomputable def ModuleManager.execute_all
    (modules : List (String × (String → Except String String)))
    (rules : ReasoningRules) (phone_number : String) : Bundle :=
  (modules.map (fun m => (m.1, catchEntry (m.2 phone_number)))) ++
  [("ai_analysis", BundleEntry.aiAnalysis (AIReasoningEngine.analyze rules phone_number))]

/-! ## Orchestrator (src/app/main.py lines 524, 582 to 633)

`run_investigation` stores the bundle produced by `execute_all`, or an
error dictionary when it raised, into `results_cache`; the status route
reports completion exactly when the cache read yields data.  The `run`
command of the index route spawns a background `run_investigation` thread
unconditionally. -/

inductive CachedResult where
  | bundle (results : Bundle)
  | errorResult (msg : String)

/-- Cache writes performed by one `run_investigation` call, given the
outcome of `module_manager.execute_all` (an exception from it is modelled
by the error case). -/
def run_investigation_writes (phone_number : String)
    (outcome : Except String Bundle) : List (String × CachedResult) :=
  match outcome with
  | Except.ok results => [(phone_number, CachedResult.bundle results)]
  | Except.error e => [(phone_number, CachedResult.errorResult e)]

def applyWrites (c : Cache CachedResult) (now : ℚ)
    (ws : List (String × CachedResult)) : Cache CachedResult :=
  ws.foldl (fun acc kv => acc.set kv.1 kv.2 none now) c

def run_investigation (c : Cache CachedResult) (phone_number : String)
    (outcome : Except String Bundle) (now : ℚ) : Cache CachedResult :=
  applyWrites c now (run_investigation_writes phone_number outcome)

inductive StatusResponse where
  | complete (results : CachedResult)
  | in_progress

/-- Route `/investigation/status` (src/app/main.py lines 611 to 620). -/
def investigation_status (c : Cache CachedResult) (phone_number : String)
    (now : ℚ) : StatusResponse × Cache CachedResult :=
  match c.get phone_number now with
  | (some results, c1) => (StatusResponse.complete results, c1)
  | (none, c1) => (StatusResponse.in_progress, c1)

structure OrchestratorState where
  results_cache : Cache CachedResult
  pendingRuns : List String

inductive RunResponse where
  | failed
  | redirect
deriving DecidableEq

/-- The `run` branch of the index route (src/app/main.py lines 582 to
591): with no phone number in the session it renders the failure page;
otherwise it starts a background `run_investigation` thread for the
session phone number, unconditionally, and redirects. -/
def runCommand (st : OrchestratorState) (sessionPhone : Option String) :
    OrchestratorState × RunResponse :=
  match sessionPhone with
  | none => (st, RunResponse.failed)
  | some phone_number =>
      ({ st with pendingRuns := st.pendingRuns ++ [phone_number] }, RunResponse.redirect)

/-! ## Pipeline steps touching a module rate state (for the dead-branch
analysis of `handle_rate_limit`)

The orchestration pipeline of src/app/main.py constructs each module once
and afterwards only ever calls `execute` on it ( via `execute_all` or
`execute_module`).  `execute` and every `_execute` body read but never
write `rate_limited` or `rate_limit_reset`, and no code in any module,
`ModuleManager`, or route calls `handle_rate_limit`. -/

inductive PipelineOp where
  | runExecute (phone_number : String) (now : ℚ)

/-- Effect of a pipeline operation on a module rate state: `execute` does
not modify it. -/
def applyPipelineOp (st : ModuleRateState) (_ : PipelineOp) : ModuleRateState := st

def runPipeline (st : ModuleRateState) (ops : List PipelineOp) : ModuleRateState :=
  ops.foldl applyPipelineOp st

/-! ## Tier ordering vocabulary (for stating the max-tier property of the
rule engine: `low < medium < high`) -/

def tierVal : String → ℕ
  | "high" => 2
  | "medium" => 1
  | _ => 0

def tierName : ℕ → String
  | 2 => "high"
  | 1 => "medium"
  | _ => "low"

def maxTier (tiers : List String) : ℕ :=
  tiers.foldr (fun t m => max (tierVal t) m) 0

/-! ## Helper lemmas -/

lemma is_allowed_preserves_bound (rl : RateLimiter) (id : String) (now : ℚ)
    (h : ∀ k, (rl.requests k).length ≤ RATE_LIMIT_REQUESTS) :
    ∀ k, (((rl.is_allowed id now).1).requests k).length ≤ RATE_LIMIT_REQUESTS := by
  intro k
  unfold RateLimiter.is_allowed
  by_cases hlt : (rl.pruned id now).length < RATE_LIMIT_REQUESTS
  · simp only [hlt, if_true]
    by_cases hk : k = id
    · simp only [hk, if_true, List.length_append, List.length_singleton]
      omega
    · simp only [hk, if_false]
      exact h k
  · simp only [hlt, if_false]
    by_cases hk : k = id
    · simp only [hk, if_true]
      calc (rl.pruned id now).length ≤ (rl.requests id).length :=
            List.length_filter_le _ _
        _ ≤ RATE_LIMIT_REQUESTS := h id
    · simp only [hk, if_false]
      exact h k

lemma runCalls_bound (calls : List (String × ℚ)) :
    ∀ rl : RateLimiter, (∀ k, (rl.requests k).length ≤ RATE_LIMIT_REQUESTS) →
      ∀ k, (((rl.runCalls calls)).requests k).length ≤ RATE_LIMIT_REQUESTS := by
  induction calls with
  | nil => intro rl h k; exact h k
  | cons c rest ih =>
      intro rl h k
      have hstep := is_allowed_preserves_bound rl c.1 c.2 h
      exact ih _ hstep k

lemma base_check_preserves_bound (name : String) (rate_limit : ℕ) (rate_period : ℚ)
    (times : List ℚ) (now : ℚ) (h : times.length ≤ rate_limit) :
    ((BaseModule.check_rate_limit name rate_limit rate_period times now).1).length
      ≤ rate_limit := by
  unfold BaseModule.check_rate_limit
  by_cases hge : (times.filter (fun t => now - t < rate_period)).length ≥ rate_limit
  · simp only [hge, if_true]
    calc (times.filter (fun t => now - t < rate_period)).length ≤ times.length :=
          List.length_filter_le _ _
      _ ≤ rate_limit := h
  · simp only [hge, if_false, List.length_append, List.length_singleton]
    omega

lemma base_runChecks_bound (name : String) (rate_limit : ℕ) (rate_period : ℚ)
    (nows : List ℚ) :
    ∀ times : List ℚ, times.length ≤ rate_limit →
      (BaseModule.runChecks name rate_limit rate_period times nows).length ≤ rate_limit := by
  induction nows with
  | nil => intro times h; exact h
  | cons t rest ih =>
      intro times h
      exact ih _ (base_check_preserves_bound name rate_limit rate_period times t h)

lemma Cache.get_of_cache_none {α : Type} (c : Cache α) (key : String) (t : ℚ)
    (h : c.cache key = none) : (c.get key t).1 = none := by
  simp [Cache.get, h]

lemma countChar_cons (c : Char) (t : List Char) (x : ℕ) :
    countChar (c :: t) x = countChar t x + (if c.toNat = x then 1 else 0) := by
  by_cases h : c.toNat = x <;> simp [countChar, List.filter_cons, h]

lemma sum_countChar (s : List Char) (h : ∀ c ∈ s, c.toNat < 256) :
    ∑ x ∈ Finset.range 256, countChar s x = s.length := by
  induction s with
  | nil => simp [countChar]
  | cons c t ih =>
      have hc : c.toNat ∈ Finset.range 256 := Finset.mem_range.mpr (h c (by simp))
      have ht : ∀ d ∈ t, d.toNat < 256 := fun d hd => h d (List.mem_cons_of_mem c hd)
      simp only [countChar_cons]
      rw [Finset.sum_add_distrib, ih ht,
        Finset.sum_ite_eq (Finset.range 256) c.toNat (fun _ => 1), if_pos hc]
      simp

set_option maxRecDepth 8000 in
lemma entropy_all_zeros : calculate_entropy "0000000000".toList = 0 := by
  have hlen : ("0000000000".toList).length = 10 := by decide
  have hcount : ∀ x ∈ Finset.range 256,
      countChar "0000000000".toList x = if x = 48 then 10 else 0 := by decide
  unfold calculate_entropy
  rw [if_neg (by rw [hlen]; norm_num)]
  have hterm : ∀ x ∈ Finset.range 256,
      (if 0 < countChar "0000000000".toList x then
        -(((countChar "0000000000".toList x : ℝ) / (("0000000000".toList).length : ℝ)) *
          Real.logb 2 ((countChar "0000000000".toList x : ℝ) /
            (("0000000000".toList).length : ℝ)))
      else 0) = 0 := by
    intro x hx
    rw [hcount x hx, hlen]
    by_cases h48 : x = 48
    · rw [if_pos h48, if_pos (by norm_num : 0 < 10)]
      norm_num
    · rw [if_neg h48]
      norm_num
  rw [Finset.sum_congr rfl hterm]
  exact Finset.sum_const_zero

set_option maxRecDepth 8000 in
lemma entropy_ten_digits : calculate_entropy "0123456789".toList = Real.logb 2 10 := by
  have hlen : ("0123456789".toList).length = 10 := by decide
  have hcount : ∀ x ∈ Finset.range 256,
      countChar "0123456789".toList x = if 48 ≤ x ∧ x ≤ 57 then 1 else 0 := by decide
  unfold calculate_entropy
  rw [if_neg (by rw [hlen]; norm_num)]
  have hterm : ∀ x ∈ Finset.range 256,
      (if 0 < countChar "0123456789".toList x then
        -(((countChar "0123456789".toList x : ℝ) / (("0123456789".toList).length : ℝ)) *
          Real.logb 2 ((countChar "0123456789".toList x : ℝ) /
            (("0123456789".toList).length : ℝ)))
      else 0) = (if 48 ≤ x ∧ x ≤ 57 then (1 : ℝ) / 10 * Real.logb 2 10 else 0) := by
    intro x hx
    rw [hcount x hx, hlen]
    by_cases hd : 48 ≤ x ∧ x ≤ 57
    · rw [if_pos hd, if_pos hd, if_pos (by norm_num : 0 < 1)]
      push_cast
      rw [one_div, Real.logb_inv]
      ring
    · rw [if_neg hd, if_neg hd]
      norm_num
  rw [Finset.sum_congr rfl hterm, ← Finset.sum_filter, Finset.sum_const]
  have hcard : ((Finset.range 256).filter (fun x => 48 ≤ x ∧ x ≤ 57)).card = 10 := by decide
  rw [hcard, nsmul_eq_mul]
  push_cast
  ring

lemma logb_two_ten_gt : (83 : ℝ) / 25 < Real.logb 2 10 := by
  have hlog2 : (0 : ℝ) < Real.log 2 := Real.log_pos (by norm_num)
  have key : (83 : ℝ) * Real.log 2 < 25 * Real.log 10 := by
    have h1 : Real.log ((2 : ℝ) ^ (83 : ℕ)) < Real.log ((10 : ℝ) ^ (25 : ℕ)) := by
      apply Real.log_lt_log (by positivity)
      norm_num
    rw [Real.log_pow, Real.log_pow] at h1
    push_cast at h1
    linarith
  rw [Real.logb, div_lt_div_iff (by norm_num : (0 : ℝ) < 25) hlog2]
  linarith

lemma logb_two_ten_lt : Real.logb 2 10 < (333 : ℝ) / 100 := by
  have hlog2 : (0 : ℝ) < Real.log 2 := Real.log_pos (by norm_num)
  have key : (100 : ℝ) * Real.log 10 < 333 * Real.log 2 := by
    have h1 : Real.log ((10 : ℝ) ^ (100 : ℕ)) < Real.log ((2 : ℝ) ^ (333 : ℕ)) := by
      apply Real.log_lt_log (by positivity)
      norm_num
    rw [Real.log_pow, Real.log_pow] at h1
    push_cast at h1
    linarith
  rw [Real.logb, div_lt_div_iff hlog2 (by norm_num : (0 : ℝ) < 100)]
  linarith

lemma digit_char_code {c : Char} (hm : c ∈ "0123456789".toList) :
    48 ≤ c.toNat ∧ c.toNat ≤ 57 := by
  have hm2 : c ∈ ['0', '1', '2', '3', '4', '5', '6', '7', '8', '9'] := hm
  have hd : c = '0' ∨ c = '1' ∨ c = '2' ∨ c = '3' ∨ c = '4' ∨ c = '5' ∨ c = '6' ∨
      c = '7' ∨ c = '8' ∨ c = '9' := by simpa using hm2
  rcases hd with rfl | rfl | rfl | rfl | rfl | rfl | rfl | rfl | rfl | rfl <;> decide

lemma entropy_le_logb_ten (s : List Char) (h : ∀ c ∈ s, c ∈ "0123456789".toList) :
    calculate_entropy s ≤ Real.logb 2 10 := by
  have hcode : ∀ c ∈ s, 48 ≤ c.toNat ∧ c.toNat ≤ 57 := fun c hc => digit_char_code (h c hc)
  by_cases hs : s.length = 0
  · unfold calculate_entropy
    rw [if_pos hs]
    exact Real.logb_nonneg (by norm_num) (by norm_num)
  · have hn : 0 < s.length := Nat.pos_of_ne_zero hs
    have hnR : (0 : ℝ) < (s.length : ℝ) := by exact_mod_cast hn
    have hlog2 : (0 : ℝ) < Real.log 2 := Real.log_pos (by norm_num)
    set T := (Finset.range 256).filter (fun x => 0 < countChar s x) with hT
    set w : ℕ → ℝ := fun x => (countChar s x : ℝ) / (s.length : ℝ) with hwdef
    have hwpos : ∀ x ∈ T, 0 < w x := by
      intro x hx
      have hc := (Finset.mem_filter.mp hx).2
      have : (0 : ℝ) < (countChar s x : ℝ) := by exact_mod_cast hc
      exact div_pos this hnR
    have hsum256 : ∑ x ∈ Finset.range 256, countChar s x = s.length :=
      sum_countChar s (fun c hc => by have := (hcode c hc).2; omega)
    have hsumT : ∑ x ∈ T, countChar s x = s.length := by
      rw [hT, Finset.sum_filter_of_ne (fun x _ hne => Nat.pos_of_ne_zero hne), hsum256]
    have hw1 : ∑ x ∈ T, w x = 1 := by
      rw [hwdef]
      rw [← Finset.sum_div]
      rw [← Nat.cast_sum, hsumT]
      exact div_self (ne_of_gt hnR)
    have hentropy : calculate_entropy s =
        ∑ x ∈ T, -(w x * Real.logb 2 (w x)) := by
      unfold calculate_entropy
      rw [if_neg hs, ← Finset.sum_filter]
    have hpt : ∀ x ∈ T, -(w x * Real.logb 2 (w x)) = (w x * Real.log (w x)⁻¹) / Real.log 2 := by
      intro x _
      rw [Real.logb, Real.log_inv]
      ring
    have hjensen := (strictConcaveOn_log_Ioi.concaveOn).le_map_sum
      (t := T) (w := w) (p := fun x => (w x)⁻¹)
      (fun x hx => le_of_lt (hwpos x hx)) hw1
      (fun x hx => Set.mem_Ioi.mpr (inv_pos.mpr (hwpos x hx)))
    have hinner : (∑ x ∈ T, w x • (w x)⁻¹) = (T.card : ℝ) := by
      rw [Finset.sum_congr rfl (fun x hx => by
        rw [smul_eq_mul, mul_inv_cancel₀ (ne_of_gt (hwpos x hx))])]
      rw [Finset.sum_const, nsmul_eq_mul, mul_one]
    rw [hinner] at hjensen
    have hsmul : (∑ x ∈ T, w x • Real.log ((w x)⁻¹)) = ∑ x ∈ T, w x * Real.log (w x)⁻¹ := by
      exact Finset.sum_congr rfl (fun x _ => smul_eq_mul ..)
    rw [hsmul] at hjensen
    have hTsub : T ⊆ Finset.Icc 48 57 := by
      intro x hx
      obtain ⟨_, hpos⟩ := Finset.mem_filter.mp hx
      have hex : ∃ c ∈ s, c.toNat = x := by
        by_contra hno
        push_neg at hno
        have hzero : countChar s x = 0 := by
          unfold countChar
          rw [List.length_eq_zero]
          rw [List.filter_eq_nil]
          intro c hc
          simpa using hno c hc
        omega
      obtain ⟨c, hc, rfl⟩ := hex
      exact Finset.mem_Icc.mpr (hcode c hc)
    have hcardle : T.card ≤ 10 := by
      have hle := Finset.card_le_card hTsub
      simpa [Nat.card_Icc] using hle
    have hTpos : 0 < T.card := by
      have hne : s ≠ [] := by
        intro hcontr
        rw [hcontr] at hn
        simp at hn
      obtain ⟨c, hc⟩ := List.exists_mem_of_ne_nil s hne
      refine Finset.card_pos.mpr ⟨c.toNat, Finset.mem_filter.mpr
        ⟨Finset.mem_range.mpr (by have := (hcode c hc).2; omega), ?_⟩⟩
      have hmem : c ∈ s.filter (fun d => d.toNat = c.toNat) :=
        List.mem_filter.mpr ⟨hc, by simp⟩
      unfold countChar
      exact List.length_pos.mpr (List.ne_nil_of_mem hmem)
    calc calculate_entropy s
        = ∑ x ∈ T, -(w x * Real.logb 2 (w x)) := hentropy
      _ = ∑ x ∈ T, (w x * Real.log (w x)⁻¹) / Real.log 2 :=
          Finset.sum_congr rfl hpt
      _ = (∑ x ∈ T, w x * Real.log (w x)⁻¹) / Real.log 2 :=
          (Finset.sum_div ..).symm
      _ ≤ Real.log (T.card : ℝ) / Real.log 2 :=
          (div_le_div_right hlog2).mpr hjensen
      _ = Real.logb 2 (T.card : ℝ) := Real.log_div_log
      _ ≤ Real.logb 2 10 := by
          apply Real.logb_le_logb_of_le (by norm_num : (1 : ℝ) < 2)
          · exact_mod_cast hTpos
          · exact_mod_cast hcardle

/-! ## Claim theorems -/

/-- C1: for every key and every sequence of `RateLimiter.is_allowed` calls
starting from the initial limiter, the number of admission timestamps
retained for that key is at most the configured limit (hence so is the
number of retained timestamps within the trailing period); each call
stores the pruned list and is admitted, with its timestamp recorded, if
and only if the pruned count is strictly below the limit, while a denied
call records nothing beyond the pruned list; the per-module limiter of
`BaseModule.check_rate_limit` keeps the same length bound. -/
theorem C1_rate_limiter_window_invariant :
    (∀ (calls : List (String × ℚ)) (key : String),
      ((RateLimiter.init.runCalls calls).requests key).length ≤ RATE_LIMIT_REQUESTS) ∧
    (∀ (calls : List (String × ℚ)) (key : String) (now : ℚ),
      (((RateLimiter.init.runCalls calls).requests key).filter
          (fun req_time => now - req_time < RATE_LIMIT_PERIOD)).length
        ≤ RATE_LIMIT_REQUESTS) ∧
    (∀ (rl : RateLimiter) (id : String) (now : ℚ),
      (rl.is_allowed id now).2 = true ↔
        (rl.pruned id now).length < RATE_LIMIT_REQUESTS) ∧
    (∀ (rl : RateLimiter) (id : String) (now : ℚ),
      (rl.is_allowed id now).2 = true →
        ((rl.is_allowed id now).1).requests id = rl.pruned id now ++ [now]) ∧
    (∀ (rl : RateLimiter) (id : String) (now : ℚ),
      (rl.is_allowed id now).2 = false →
        ((rl.is_allowed id now).1).requests id = rl.pruned id now) ∧
    (∀ (name : String) (rate_limit : ℕ) (rate_period : ℚ) (times : List ℚ) (now : ℚ),
      (BaseModule.check_rate_limit name rate_limit rate_period times now).2 = Except.ok true ↔
        (times.filter (fun t => now - t < rate_period)).length < rate_limit) ∧
    (∀ (name : String) (rate_limit : ℕ) (rate_period : ℚ) (times nows : List ℚ),
      times.length ≤ rate_limit →
        (BaseModule.runChecks name rate_limit rate_period times nows).length ≤ rate_limit) := by
  refine ⟨?_, ?_, ?_, ?_, ?_, ?_, ?_⟩
  · intro calls key
    exact runCalls_bound calls RateLimiter.init (fun _ => Nat.zero_le _) key
  · intro calls key now
    exact le_trans (List.length_filter_le _ _)
      (runCalls_bound calls RateLimiter.init (fun _ => Nat.zero_le _) key)
  · intro rl id now
    unfold RateLimiter.is_allowed
    by_cases hlt : (rl.pruned id now).length < RATE_LIMIT_REQUESTS
    · simp [hlt]
    · simp [hlt]
  · intro rl id now hadm
    unfold RateLimiter.is_allowed at hadm ⊢
    by_cases hlt : (rl.pruned id now).length < RATE_LIMIT_REQUESTS
    · simp [hlt]
    · simp [hlt] at hadm
  · intro rl id now hden
    unfold RateLimiter.is_allowed at hden ⊢
    by_cases hlt : (rl.pruned id now).length < RATE_LIMIT_REQUESTS
    · simp [hlt] at hden
    · simp [hlt]
  · intro name rate_limit rate_period times now
    unfold BaseModule.check_rate_limit
    by_cases hge : (times.filter (fun t => now - t < rate_period)).length ≥ rate_limit
    · constructor
      · intro h
        simp [hge] at h
      · intro h
        omega
    · constructor
      · intro _
        omega
      · intro _
        simp [hge]
  · intro name rate_limit rate_period times nows h
    exact base_runChecks_bound name rate_limit rate_period nows times h

/-- C1 witness: concrete instances of the theorem.  An admitted call on
the fresh limiter records its timestamp; a call on a limiter already
holding ten in-window timestamps for the key is denied and records
nothing; a concrete call sequence keeps the bound. -/
theorem C1_rate_limiter_window_invariant_witness :
    ((RateLimiter.init.is_allowed "k" 0).1.requests "k" = [0]) ∧
    (((⟨fun _ => [0, 0, 0, 0, 0, 0, 0, 0, 0, 0]⟩ : RateLimiter).is_allowed "k" 30).1.requests "k"
        = [0, 0, 0, 0, 0, 0, 0, 0, 0, 0]) ∧
    (((RateLimiter.init.runCalls [("a", 0), ("a", 1), ("a", 2)]).requests "a").length
        ≤ RATE_LIMIT_REQUESTS) ∧
    (BaseModule.runChecks "m" 10 60 [] [0, 1, 2]).length ≤ 10 := by
  refine ⟨?_, ?_, ?_, ?_⟩
  · have h := C1_rate_limiter_window_invariant.2.2.2.1 RateLimiter.init "k" 0
      (by simp [RateLimiter.is_allowed, RateLimiter.pruned, RateLimiter.init,
        RATE_LIMIT_REQUESTS])
    simpa [RateLimiter.pruned, RateLimiter.init] using h
  · have h := C1_rate_limiter_window_invariant.2.2.2.2.1
      (⟨fun _ => [0, 0, 0, 0, 0, 0, 0, 0, 0, 0]⟩ : RateLimiter) "k" 30
      (by norm_num [RateLimiter.is_allowed, RateLimiter.pruned, RATE_LIMIT_PERIOD,
        RATE_LIMIT_REQUESTS, List.filter])
    norm_num [RateLimiter.pruned, RATE_LIMIT_PERIOD, List.filter] at h
    exact h
  · exact C1_rate_limiter_window_invariant.1 [("a", 0), ("a", 1), ("a", 2)] "a"
  · exact C1_rate_limiter_window_invariant.2.2.2.2.2.2 "m" 10 60 [] [0, 1, 2] (by decide)

/-- C2: after `set key value ttl` at time `s`, a `get key` at time `t`
returns the value exactly when `t < s + ttl` and is absent from `t = s +
ttl` on; a `get` that finds an expired entry removes it, after which the
value can never reappear through further reads; `set` overwrites
unconditionally with the expiry clock reset from the call time, the
omitted time to live defaulting to `CACHE_EXPIRY`. -/
theorem C2_cache_expiry :
    (∀ (α : Type) (c : Cache α) (key : String) (v : α) (ttl s t : ℚ),
      ((c.set key v (some ttl) s).get key t).1 =
        if t < s + ttl then some v else none) ∧
    (∀ (α : Type) (c : Cache α) (key : String) (v : α) (ttl s : ℚ),
      (c.set key v (some ttl) s).cache key = some (v, s + ttl)) ∧
    (∀ (α : Type) (c : Cache α) (key : String) (v : α) (s : ℚ),
      (c.set key v none s).cache key = some (v, s + CACHE_EXPIRY)) ∧
    (∀ (α : Type) (c : Cache α) (key : String) (v : α) (e t : ℚ),
      c.cache key = some (v, e) → e ≤ t →
        ((c.get key t).2).cache key = none) ∧
    (∀ (α : Type) (c : Cache α) (key : String) (v : α) (e t1 : ℚ),
      c.cache key = some (v, e) → e ≤ t1 →
        ∀ t2 : ℚ, (((c.get key t1).2).get key t2).1 = none) := by
  refine ⟨?_, ?_, ?_, ?_, ?_⟩
  · intro α c key v ttl s t
    simp only [Cache.set, Cache.get, Option.getD_some, if_pos rfl]
    by_cases h : t < s + ttl
    · simp [h]
    · simp [h]
  · intro α c key v ttl s
    simp [Cache.set]
  · intro α c key v s
    simp [Cache.set]
  · intro α c key v e t hentry hle
    simp only [Cache.get, hentry]
    have h : ¬ t < e := not_lt.mpr hle
    simp [h]
  · intro α c key v e t1 hentry hle t2
    have hdel : ((c.get key t1).2).cache key = none := by
      simp only [Cache.get, hentry]
      have h : ¬ t1 < e := not_lt.mpr hle
      simp [h]
    exact Cache.get_of_cache_none _ key t2 hdel

/-- C2 witness: on a cache holding `7` at key `p` stored at time `0` with
ttl `5`, a read at time `3` sees the value, a read at time `5` is absent
and removes the entry, after which a read even at the earlier time `3`
stays absent; the default ttl write stamps expiry `300` from the call
time. -/
theorem C2_cache_expiry_witness :
    (((Cache.empty.set "p" 7 (some 5) 0).get "p" 3).1 = some 7) ∧
    (((Cache.empty.set "p" 7 (some 5) 0).get "p" 5).1 = none) ∧
    ((((Cache.empty.set "p" 7 (some 5) 0).get "p" 5).2).cache "p" = none) ∧
    (∀ t2 : ℚ, ((((Cache.empty.set "p" 7 (some 5) 0).get "p" 5).2).get "p" t2).1 = none) ∧
    ((Cache.empty.set "q" 9 none 2).cache "q" = some (9, 302)) := by
  refine ⟨?_, ?_, ?_, ?_, ?_⟩
  · have h := C2_cache_expiry.1 ℕ Cache.empty "p" 7 5 0 3
    norm_num at h
    exact h
  · have h := C2_cache_expiry.1 ℕ Cache.empty "p" 7 5 0 5
    norm_num at h
    exact h
  · exact C2_cache_expiry.2.2.2.1 ℕ (Cache.empty.set "p" 7 (some 5) 0) "p" 7 5 5
      (by norm_num [Cache.set, Cache.empty]) (by norm_num)
  · intro t2
    exact C2_cache_expiry.2.2.2.2 ℕ (Cache.empty.set "p" 7 (some 5) 0) "p" 7 5 5
      (by norm_num [Cache.set, Cache.empty]) (by norm_num) t2
  · have h := C2_cache_expiry.2.2.1 ℕ Cache.empty "q" 9 2
    norm_num [CACHE_EXPIRY] at h
    exact h

/-- C3: evaluation of the `run` branch of the index route at the failing
input.  With an unexpired cache entry already present for the session
phone number, issuing `run` still schedules a fresh background
investigation instead of being a no-op, and issuing `run` twice in rapid
succession schedules two background executions of the full module fan-out
for the same number. -/
theorem C3_run_schedules_unconditionally :
    ((({ results_cache := Cache.empty.set "+18005551234" (CachedResult.errorResult "prior") none 0
         pendingRuns := [] } : OrchestratorState).results_cache.get "+18005551234" 1).1
        = some (CachedResult.errorResult "prior")) ∧
    ((runCommand
        { results_cache := Cache.empty.set "+18005551234" (CachedResult.errorResult "prior") none 0
          pendingRuns := [] } (some "+18005551234")).1.pendingRuns = ["+18005551234"]) ∧
    ((runCommand
        (runCommand
          { results_cache := Cache.empty.set "+18005551234" (CachedResult.errorResult "prior") none 0
            pendingRuns := [] } (some "+18005551234")).1 (some "+18005551234")).1.pendingRuns
        = ["+18005551234", "+18005551234"]) := by
  refine ⟨?_, ?_, ?_⟩
  · norm_num [Cache.set, Cache.empty, Cache.get, CACHE_EXPIRY]
  · simp [runCommand]
  · simp [runCommand]

/-- C4: a `run_investigation` call performs exactly one write into the
results cache whether `execute_all` returned normally or raised: the
bundle, or an error result, is stamped with the default expiry from the
write time and is never left un-cached; the status route reports
`in_progress` exactly while no unexpired entry exists for the phone
number and reports `complete` with the written result at any poll instant
before the entry expires. -/
theorem C4_run_investigation_exactly_one_write :
    (∀ (phone_number : String) (outcome : Except String Bundle),
      (run_investigation_writes phone_number outcome).length = 1) ∧
    (∀ (c : Cache CachedResult) (phone_number : String) (results : Bundle) (now : ℚ),
      (run_investigation c phone_number (Except.ok results) now).cache phone_number
        = some (CachedResult.bundle results, now + CACHE_EXPIRY)) ∧
    (∀ (c : Cache CachedResult) (phone_number e : String) (now : ℚ),
      (run_investigation c phone_number (Except.error e) now).cache phone_number
        = some (CachedResult.errorResult e, now + CACHE_EXPIRY)) ∧
    (∀ (c : Cache CachedResult) (phone_number : String) (now : ℚ),
      (investigation_status c phone_number now).1 = StatusResponse.in_progress ↔
        (∀ r : CachedResult, ∀ e : ℚ, c.cache phone_number = some (r, e) → e ≤ now)) ∧
    (∀ (c : Cache CachedResult) (phone_number : String) (results : Bundle) (now t : ℚ),
      t < now + CACHE_EXPIRY →
        (investigation_status (run_investigation c phone_number (Except.ok results) now)
            phone_number t).1
          = StatusResponse.complete (CachedResult.bundle results)) ∧
    (∀ (c : Cache CachedResult) (phone_number e : String) (now t : ℚ),
      t < now + CACHE_EXPIRY →
        (investigation_status (run_investigation c phone_number (Except.error e) now)
            phone_number t).1
          = StatusResponse.complete (CachedResult.errorResult e)) := by
  have hwrite : ∀ (c : Cache CachedResult) (phone_number : String) (r : CachedResult) (now : ℚ),
      (run_investigation c phone_number
          (match r with
           | CachedResult.bundle results => Except.ok results
           | CachedResult.errorResult e => Except.error e) now).cache phone_number
        = some (r, now + CACHE_EXPIRY) := by
    intro c phone_number r now
    cases r <;>
      simp [run_investigation, run_investigation_writes, applyWrites, Cache.set]
  refine ⟨?_, ?_, ?_, ?_, ?_, ?_⟩
  · intro phone_number outcome
    cases outcome <;> simp [run_investigation_writes]
  · intro c phone_number results now
    exact hwrite c phone_number (CachedResult.bundle results) now
  · intro c phone_number e now
    exact hwrite c phone_number (CachedResult.errorResult e) now
  · intro c phone_number now
    unfold investigation_status Cache.get
    cases hc : c.cache phone_number with
    | none => simp
    | some pair =>
        obtain ⟨r, e⟩ := pair
        by_cases h : now < e
        · simp only [h, if_true]
          constructor
          · intro hcontr
            exact StatusResponse.noConfusion hcontr
          · intro hall
            exact absurd (hall r e rfl) (not_le.mpr h)
        · simp only [h, if_false]
          constructor
          · intro _ r1 e1 he
            have h2 : e = e1 := congrArg Prod.snd (Option.some.inj he)
            rw [← h2]
            exact le_of_not_lt h
          · intro _
            trivial
  · intro c phone_number results now t ht
    have hc := hwrite c phone_number (CachedResult.bundle results) now
    simp only at hc
    unfold investigation_status Cache.get
    rw [hc]
    simp [ht]
  · intro c phone_number e now t ht
    have hc := hwrite c phone_number (CachedResult.errorResult e) now
    simp only at hc
    unfold investigation_status Cache.get
    rw [hc]
    simp [ht]

/-- C4 witness: a run on the empty cache with a normal outcome, and one
with a raising outcome, each leave exactly their result cached and report
`complete` at a poll inside the ttl, while the empty cache polls as
`in_progress`. -/
theorem C4_run_investigation_exactly_one_write_witness :
    ((run_investigation Cache.empty "x" (Except.ok []) 0).cache "x"
        = some (CachedResult.bundle [], 0 + CACHE_EXPIRY)) ∧
    ((investigation_status (run_investigation Cache.empty "x" (Except.ok []) 0) "x" 10).1
        = StatusResponse.complete (CachedResult.bundle [])) ∧
    ((investigation_status (run_investigation Cache.empty "x" (Except.error "boom") 0) "x" 10).1
        = StatusResponse.complete (CachedResult.errorResult "boom")) ∧
    ((investigation_status Cache.empty "x" 5).1 = StatusResponse.in_progress) := by
  refine ⟨?_, ?_, ?_, ?_⟩
  · exact C4_run_investigation_exactly_one_write.2.1 Cache.empty "x" [] 0
  · exact C4_run_investigation_exactly_one_write.2.2.2.2.1 Cache.empty "x" [] 0 10
      (by norm_num [CACHE_EXPIRY])
  · exact C4_run_investigation_exactly_one_write.2.2.2.2.2 Cache.empty "x" "boom" 0 10
      (by norm_num [CACHE_EXPIRY])
  · refine (C4_run_investigation_exactly_one_write.2.2.2.1 Cache.empty "x" 5).mpr ?_
    intro r e h
    exact absurd h (by simp [Cache.empty])

/-- C5: `execute_all` always produces one entry per registered module, in
registry order, followed by the synthesized `ai_analysis` entry; the entry
of each module is computed from that module's own outcome alone, an
exception being caught and recorded as that module's error payload, so a
failure in one module never changes or suppresses the entry of any
sibling. -/
theorem C5_execute_all_fail_isolation :
    (∀ (modules : List (String × (String → Except String String)))
        (rules : ReasoningRules) (phone_number : String),
      (ModuleManager.execute_all modules rules phone_number).length
        = modules.length + 1) ∧
    (∀ (modules : List (String × (String → Except String String)))
        (rules : ReasoningRules) (phone_number : String),
      (ModuleManager.execute_all modules rules phone_number).map Prod.fst
        = modules.map Prod.fst ++ ["ai_analysis"]) ∧
    (∀ (modules : List (String × (String → Except String String)))
        (rules : ReasoningRules) (phone_number : String) (i : ℕ), i < modules.length →
      (ModuleManager.execute_all modules rules phone_number).get? i
        = (modules.get? i).map (fun m => (m.1, catchEntry (m.2 phone_number)))) ∧
    (∀ (modules : List (String × (String → Except String String)))
        (rules : ReasoningRules) (phone_number : String),
      (ModuleManager.execute_all modules rules phone_number).get? modules.length
        = some ("ai_analysis",
            BundleEntry.aiAnalysis (AIReasoningEngine.analyze rules phone_number))) := by
  refine ⟨?_, ?_, ?_, ?_⟩
  · intro modules rules phone_number
    simp [ModuleManager.execute_all]
  · intro modules rules phone_number
    simp [ModuleManager.execute_all, List.map_map, Function.comp]
  · intro modules rules phone_number i hi
    unfold ModuleManager.execute_all
    rw [List.get?_append (by simpa using hi), List.get?_map]
  · intro modules rules phone_number
    unfold ModuleManager.execute_all
    rw [List.get?_append_right (by simp)]
    simp

/-- C5 witness: a registry of two modules of which the first raises; the
bundle still carries the first module's error payload, the second
module's normal payload, and the `ai_analysis` entry, in order. -/
theorem C5_execute_all_fail_isolation_witness :
    ((ModuleManager.execute_all
        [("phone_info", fun _ => Except.error "NumberParseException"),
         ("spam_risk", fun _ => Except.ok "fine")] defaultRules "+15551234567").get? 0
      = some ("phone_info", BundleEntry.moduleErr "NumberParseException")) ∧
    ((ModuleManager.execute_all
        [("phone_info", fun _ => Except.error "NumberParseException"),
         ("spam_risk", fun _ => Except.ok "fine")] defaultRules "+15551234567").get? 1
      = some ("spam_risk", BundleEntry.moduleOk "fine")) ∧
    ((ModuleManager.execute_all
        [("phone_info", fun _ => Except.error "NumberParseException"),
         ("spam_risk", fun _ => Except.ok "fine")] defaultRules "+15551234567").get? 2
      = some ("ai_analysis",
          BundleEntry.aiAnalysis (AIReasoningEngine.analyze defaultRules "+15551234567"))) ∧
    (ModuleManager.execute_all
        [("phone_info", fun _ => Except.error "NumberParseException"),
         ("spam_risk", fun _ => Except.ok "fine")] defaultRules "+15551234567").length = 3 := by
  refine ⟨?_, ?_, ?_, ?_⟩
  · have h := C5_execute_all_fail_isolation.2.2.1
      [("phone_info", fun _ => Except.error "NumberParseException"),
       ("spam_risk", fun _ => Except.ok "fine")] defaultRules "+15551234567" 0 (by norm_num)
    simpa [catchEntry] using h
  · have h := C5_execute_all_fail_isolation.2.2.1
      [("phone_info", fun _ => Except.error "NumberParseException"),
       ("spam_risk", fun _ => Except.ok "fine")] defaultRules "+15551234567" 1 (by norm_num)
    simpa [catchEntry] using h
  · exact C5_execute_all_fail_isolation.2.2.2
      [("phone_info", fun _ => Except.error "NumberParseException"),
       ("spam_risk", fun _ => Except.ok "fine")] defaultRules "+15551234567"
  · exact C5_execute_all_fail_isolation.1
      [("phone_info", fun _ => Except.error "NumberParseException"),
       ("spam_risk", fun _ => Except.ok "fine")] defaultRules "+15551234567"

/-- C7: the spam risk score is additive: 30 when the number parses but is
invalid, 50 when it cannot be parsed (the two cases are mutually
exclusive), 20 when the first known spam prefix scan hits, 15 when a
four-digit virtual pattern occurs; a total of exactly 0 is floored to 10;
the reported score is the total clamped to at most 100 (and, being a
natural number, at least 0); the tier is Low below 20, Medium below 50
and High from 50 on, so an unparsable number with no spam prefix and no
virtual pattern scores exactly 50 (High) and a valid, non-prefixed,
non-virtual number scores 10 (Low). -/
theorem C7_spam_risk_additive_score :
    (∀ (po : ParseOutcome) (phone_number : String),
      (SpamRiskModule.body po phone_number).risk_score =
        min 100
          (if ((if po = ParseOutcome.parsedInvalid then 30 else 0) +
               (if po = ParseOutcome.unparsable then 50 else 0) +
               (if (known_spam_prefixes.find? fun p =>
                     p.toList.isPrefixOf (stripNonDigits phone_number)).isSome then 20 else 0) +
               (if virtual_patterns_four.any fun p =>
                     isSubstringOf p.toList (stripNonDigits phone_number) then 15 else 0)) = 0
           then 10
           else ((if po = ParseOutcome.parsedInvalid then 30 else 0) +
                 (if po = ParseOutcome.unparsable then 50 else 0) +
                 (if (known_spam_prefixes.find? fun p =>
                       p.toList.isPrefixOf (stripNonDigits phone_number)).isSome then 20 else 0) +
                 (if virtual_patterns_four.any fun p =>
                       isSubstringOf p.toList (stripNonDigits phone_number) then 15 else 0)))) ∧
    (∀ po : ParseOutcome, ¬(po = ParseOutcome.parsedInvalid ∧ po = ParseOutcome.unparsable)) ∧
    (∀ (po : ParseOutcome) (phone_number : String),
      (SpamRiskModule.body po phone_number).risk_score ≤ 100) ∧
    (∀ n : ℕ, (n < 20 → SpamRiskModule.get_risk_level n = "Low") ∧
      (20 ≤ n → n < 50 → SpamRiskModule.get_risk_level n = "Medium") ∧
      (50 ≤ n → SpamRiskModule.get_risk_level n = "High")) ∧
    (∀ phone_number : String,
      (known_spam_prefixes.find? fun p =>
          p.toList.isPrefixOf (stripNonDigits phone_number)).isSome = false →
      (virtual_patterns_four.any fun p =>
          isSubstringOf p.toList (stripNonDigits phone_number)) = false →
      (SpamRiskModule.body ParseOutcome.unparsable phone_number).risk_score = 50 ∧
      (SpamRiskModule.body ParseOutcome.unparsable phone_number).risk_level = "High") ∧
    (∀ phone_number : String,
      (known_spam_prefixes.find? fun p =>
          p.toList.isPrefixOf (stripNonDigits phone_number)).isSome = false →
      (virtual_patterns_four.any fun p =>
          isSubstringOf p.toList (stripNonDigits phone_number)) = false →
      (SpamRiskModule.body ParseOutcome.parsedValid phone_number).risk_score = 10 ∧
      (SpamRiskModule.body ParseOutcome.parsedValid phone_number).risk_level = "Low") := by
  have hmain : ∀ (po : ParseOutcome) (phone_number : String),
      (SpamRiskModule.body po phone_number).risk_score =
        min 100
          (if ((if po = ParseOutcome.parsedInvalid then 30 else 0) +
               (if po = ParseOutcome.unparsable then 50 else 0) +
               (if (known_spam_prefixes.find? fun p =>
                     p.toList.isPrefixOf (stripNonDigits phone_number)).isSome then 20 else 0) +
               (if virtual_patterns_four.any fun p =>
                     isSubstringOf p.toList (stripNonDigits phone_number) then 15 else 0)) = 0
           then 10
           else ((if po = ParseOutcome.parsedInvalid then 30 else 0) +
                 (if po = ParseOutcome.unparsable then 50 else 0) +
                 (if (known_spam_prefixes.find? fun p =>
                       p.toList.isPrefixOf (stripNonDigits phone_number)).isSome then 20 else 0) +
                 (if virtual_patterns_four.any fun p =>
                       isSubstringOf p.toList (stripNonDigits phone_number) then 15 else 0))) := by
    intro po phone_number
    rcases Bool.eq_false_or_eq_true ((known_spam_prefixes.find? fun p =>
        p.toList.isPrefixOf (stripNonDigits phone_number)).isSome) with hp | hp <;>
      rcases Bool.eq_false_or_eq_true (virtual_patterns_four.any fun p =>
        isSubstringOf p.toList (stripNonDigits phone_number)) with hv | hv <;>
      cases po <;>
      simp only [SpamRiskModule.body, hp, hv] <;>
      decide
  have hlevel : ∀ (po : ParseOutcome) (phone_number : String),
      (SpamRiskModule.body po phone_number).risk_level =
        SpamRiskModule.get_risk_level
          (if ((if po = ParseOutcome.parsedInvalid then 30 else 0) +
               (if po = ParseOutcome.unparsable then 50 else 0) +
               (if (known_spam_prefixes.find? fun p =>
                     p.toList.isPrefixOf (stripNonDigits phone_number)).isSome then 20 else 0) +
               (if virtual_patterns_four.any fun p =>
                     isSubstringOf p.toList (stripNonDigits phone_number) then 15 else 0)) = 0
           then 10
           else ((if po = ParseOutcome.parsedInvalid then 30 else 0) +
                 (if po = ParseOutcome.unparsable then 50 else 0) +
                 (if (known_spam_prefixes.find? fun p =>
                       p.toList.isPrefixOf (stripNonDigits phone_number)).isSome then 20 else 0) +
                 (if virtual_patterns_four.any fun p =>
                       isSubstringOf p.toList (stripNonDigits phone_number) then 15 else 0))) := by
    intro po phone_number
    rcases Bool.eq_false_or_eq_true ((known_spam_prefixes.find? fun p =>
        p.toList.isPrefixOf (stripNonDigits phone_number)).isSome) with hp | hp <;>
      rcases Bool.eq_false_or_eq_true (virtual_patterns_four.any fun p =>
        isSubstringOf p.toList (stripNonDigits phone_number)) with hv | hv <;>
      cases po <;>
      simp only [SpamRiskModule.body, hp, hv] <;>
      decide
  refine ⟨hmain, ?_, ?_, ?_, ?_, ?_⟩
  · intro po hcontr
    obtain ⟨h1, h2⟩ := hcontr
    rw [h1] at h2
    exact ParseOutcome.noConfusion h2
  · intro po phone_number
    rw [hmain po phone_number]
    exact Nat.min_le_left _ _
  · intro n
    refine ⟨fun h => ?_, fun h1 h2 => ?_, fun h => ?_⟩
    · simp [SpamRiskModule.get_risk_level, h]
    · have h3 : ¬ n < 20 := by omega
      simp [SpamRiskModule.get_risk_level, h3, h2]
    · have h1 : ¬ n < 20 := by omega
      have h2 : ¬ n < 50 := by omega
      simp [SpamRiskModule.get_risk_level, h1, h2]
  · intro phone_number hp hv
    constructor
    · rw [hmain ParseOutcome.unparsable phone_number]
      simp only [hp, hv]
      decide
    · rw [hlevel ParseOutcome.unparsable phone_number]
      simp only [hp, hv]
      decide
  · intro phone_number hp hv
    constructor
    · rw [hmain ParseOutcome.parsedValid phone_number]
      simp only [hp, hv]
      decide
    · rw [hlevel ParseOutcome.parsedValid phone_number]
      simp only [hp, hv]
      decide

/-- C7 witness: on an input with no digits at all, the unparsable outcome
scores exactly 50 with tier High and the valid outcome scores 10 with
tier Low; a concrete score is at most 100. -/
theorem C7_spam_risk_additive_score_witness :
    ((SpamRiskModule.body ParseOutcome.unparsable "abc").risk_score = 50) ∧
    ((SpamRiskModule.body ParseOutcome.unparsable "abc").risk_level = "High") ∧
    ((SpamRiskModule.body ParseOutcome.parsedValid "abc").risk_score = 10) ∧
    ((SpamRiskModule.body ParseOutcome.parsedValid "abc").risk_level = "Low") ∧
    ((SpamRiskModule.body ParseOutcome.unparsable "+1 (800) 111-1234").risk_score ≤ 100) := by
  refine ⟨?_, ?_, ?_, ?_, ?_⟩
  · exact (C7_spam_risk_additive_score.2.2.2.2.1 "abc" (by decide) (by decide)).1
  · exact (C7_spam_risk_additive_score.2.2.2.2.1 "abc" (by decide) (by decide)).2
  · exact (C7_spam_risk_additive_score.2.2.2.2.2 "abc" (by decide) (by decide)).1
  · exact (C7_spam_risk_additive_score.2.2.2.2.2 "abc" (by decide) (by decide)).2
  · exact C7_spam_risk_additive_score.2.2.1 ParseOutcome.unparsable "+1 (800) 111-1234"

/-- C8: `calculate_entropy` computes Shannon entropy in bits of the
character distribution: the empty string and the constant string of ten
zeros have entropy `0`; the string of the ten distinct digits has entropy
`log2 10`, which lies within `0.01` of `3.32`; and `log2 10` is the
maximal entropy of any digit string, so ten equally frequent digits
attain the maximum. -/
theorem C8_entropy_values :
    (calculate_entropy "".toList = 0) ∧
    (calculate_entropy "0000000000".toList = 0) ∧
    (calculate_entropy "0123456789".toList = Real.logb 2 10) ∧
    (|Real.logb 2 10 - 3.32| < 0.01) ∧
    (∀ s : List Char, (∀ c ∈ s, c ∈ "0123456789".toList) →
      calculate_entropy s ≤ Real.logb 2 10) := by
  refine ⟨by simp [calculate_entropy], entropy_all_zeros, entropy_ten_digits, ?_,
    entropy_le_logb_ten⟩
  rw [abs_lt]
  have h1 := logb_two_ten_gt
  have h2 := logb_two_ten_lt
  constructor
  · norm_num at h1 ⊢
    linarith
  · norm_num at h2 ⊢
    linarith

/-- C8 witness: the maximality bound applied at the concrete digit string
`"8000123"`. -/
theorem C8_entropy_values_witness :
    (∀ c ∈ "8000123".toList, c ∈ "0123456789".toList) ∧
    calculate_entropy "8000123".toList ≤ Real.logb 2 10 := by
  constructor
  · decide
  · exact C8_entropy_values.2.2.2.2 "8000123".toList (by decide)

/-- C6: for any loaded rule table carrying the documented tier assignment
(entropy rule `medium`, toll-free rule `low`, premium-rate rule `high`),
`analyze` returns as `risk_level` the maximum tier, under the ordering
`low < medium < high`, over all matched rules, with exactly one insight
string per matched rule in evaluation order; when no rule matches it
returns `low` with no insights; and on digits whose entropy exceeds the
threshold and which also match a toll-free pattern but no premium-rate
pattern, it returns `medium` with both insight strings present. -/
theorem C6_rule_engine_max_tier :
    ∀ (rules : ReasoningRules) (phone_number : String),
      rules.high_entropy_risk = "medium" →
      rules.toll_free_risk = "low" →
      rules.premium_rate_risk = "high" →
      ((AIReasoningEngine.analyze rules phone_number).risk_level =
        tierName (maxTier
          ((if rules.high_entropy_threshold <
                calculate_entropy (stripNonDigits phone_number) then ["medium"] else []) ++
           (if (rules.toll_free_patterns.find? fun p =>
                 isSubstringOf p.toList (stripNonDigits phone_number)).isSome
            then ["low"] else []) ++
           (if (rules.premium_rate_patterns.find? fun p =>
                 isSubstringOf p.toList (stripNonDigits phone_number)).isSome
            then ["high"] else [])))) ∧
      ((AIReasoningEngine.analyze rules phone_number).insights =
        (if rules.high_entropy_threshold <
              calculate_entropy (stripNonDigits phone_number)
         then [rules.high_entropy_message] else []) ++
        (if (rules.toll_free_patterns.find? fun p =>
              isSubstringOf p.toList (stripNonDigits phone_number)).isSome
         then [rules.toll_free_message] else []) ++
        (if (rules.premium_rate_patterns.find? fun p =>
              isSubstringOf p.toList (stripNonDigits phone_number)).isSome
         then [rules.premium_rate_message] else [])) ∧
      ((¬ rules.high_entropy_threshold <
            calculate_entropy (stripNonDigits phone_number)) →
        (rules.toll_free_patterns.find? fun p =>
          isSubstringOf p.toList (stripNonDigits phone_number)).isSome = false →
        (rules.premium_rate_patterns.find? fun p =>
          isSubstringOf p.toList (stripNonDigits phone_number)).isSome = false →
        (AIReasoningEngine.analyze rules phone_number).risk_level = "low" ∧
        (AIReasoningEngine.analyze rules phone_number).insights = []) ∧
      (rules.high_entropy_threshold <
          calculate_entropy (stripNonDigits phone_number) →
        (rules.toll_free_patterns.find? fun p =>
          isSubstringOf p.toList (stripNonDigits phone_number)).isSome = true →
        (rules.premium_rate_patterns.find? fun p =>
          isSubstringOf p.toList (stripNonDigits phone_number)).isSome = false →
        (AIReasoningEngine.analyze rules phone_number).risk_level = "medium" ∧
        (AIReasoningEngine.analyze rules phone_number).insights =
          [rules.high_entropy_message, rules.toll_free_message]) := by
  intro rules phone_number hE hT hP
  by_cases he : rules.high_entropy_threshold <
      calculate_entropy (stripNonDigits phone_number) <;>
    rcases Bool.eq_false_or_eq_true ((rules.toll_free_patterns.find? fun p =>
      isSubstringOf p.toList (stripNonDigits phone_number)).isSome) with ht | ht <;>
    rcases Bool.eq_false_or_eq_true ((rules.premium_rate_patterns.find? fun p =>
      isSubstringOf p.toList (stripNonDigits phone_number)).isSome) with hp | hp <;>
    refine ⟨?_, ?_, ?_, ?_⟩ <;>
    simp only [AIReasoningEngine.analyze, he, ht, hp, hE, hT, hP, if_true, if_false,
      List.nil_append, List.append_nil, List.cons_append, maxTier, tierName, tierVal] <;>
    simp [List.contains, maxTier, tierName, tierVal]

/-- C6 witness: a rule table with threshold `3` and configured pattern
lists, on the digit string `0123456789`: the entropy rule (tier medium)
and the toll-free rule (tier low) both fire, the premium-rate rule does
not, and analyze returns `medium` with both insight strings. -/
theorem C6_rule_engine_max_tier_witness :
    ((3 : ℝ) < calculate_entropy (stripNonDigits "0123456789")) ∧
    ((AIReasoningEngine.analyze
        { defaultRules with
            high_entropy_threshold := 3
            toll_free_patterns := ["123"]
            premium_rate_patterns := ["999"] } "0123456789").risk_level = "medium") ∧
    ((AIReasoningEngine.analyze
        { defaultRules with
            high_entropy_threshold := 3
            toll_free_patterns := ["123"]
            premium_rate_patterns := ["999"] } "0123456789").insights =
      ["High entropy detected - may be a generated or virtual number",
       "Toll-free number detected"]) := by
  have hstrip : stripNonDigits "0123456789" = "0123456789".toList := by decide
  have hent : (3 : ℝ) < calculate_entropy (stripNonDigits "0123456789") := by
    rw [hstrip, entropy_ten_digits]
    have h := logb_two_ten_gt
    norm_num at h ⊢
    linarith
  have h := C6_rule_engine_max_tier
    { defaultRules with
        high_entropy_threshold := 3
        toll_free_patterns := ["123"]
        premium_rate_patterns := ["999"] }
    "0123456789" rfl rfl rfl
  have h4 := h.2.2.2 hent (by decide) (by decide)
  exact ⟨hent, h4.1, by simpa [defaultRules] using h4.2⟩

/-- C9 counterexample: the claim says a malformed (unparsable) number is
recovered locally inside the phone-info module and never raised past
`execute`; but at the unparsable parse outcome, `execute` propagates the
`NumberParseException` raised by `phonenumbers.parse`, returning no
result dictionary at all. -/
theorem C9_counterexample_unparsable_raises :
    (InvestigationModule.execute "phone_info" ModuleRateState.init 0
        (PhoneNumberModule.body ParseOutcome.unparsable ⟨"", "", [], "", ""⟩)
      = Except.error "NumberParseException") ∧
    ¬ ∃ r : PhoneInfoReturn,
        InvestigationModule.execute "phone_info" ModuleRateState.init 0
          (PhoneNumberModule.body ParseOutcome.unparsable ⟨"", "", [], "", ""⟩)
        = Except.ok r := by
  have hexec : InvestigationModule.execute "phone_info" ModuleRateState.init 0
      (PhoneNumberModule.body ParseOutcome.unparsable ⟨"", "", [], "", ""⟩)
      = Except.error "NumberParseException" := by
    simp [InvestigationModule.execute, InvestigationModule.check_rate_limit,
      ModuleRateState.init, PhoneNumberModule.body]
  refine ⟨hexec, ?_⟩
  rintro ⟨r, hr⟩
  rw [hexec] at hr
  exact Except.noConfusion hr

/-- C9 amended: with the module not rate limited, a number that parses
but is invalid yields a result carrying the explicit invalid marker
(`error` field `Invalid phone number`) without raising, and a valid
number yields its data; an unparsable number instead raises
`NumberParseException` past `execute`, to be caught only by the module
manager, which records it as that module's error payload. -/
theorem C9_amended_invalid_marker :
    ∀ (st : ModuleRateState) (now : ℚ) (ext : PhoneInfoExternal),
      st.rate_limited = false →
      (InvestigationModule.execute "phone_info" st now
          (PhoneNumberModule.body ParseOutcome.parsedInvalid ext)
        = Except.ok (PhoneInfoReturn.errorField "Invalid phone number")) ∧
      (InvestigationModule.execute "phone_info" st now
          (PhoneNumberModule.body ParseOutcome.unparsable ext)
        = Except.error "NumberParseException") ∧
      (catchEntry (Except.error "NumberParseException")
        = BundleEntry.moduleErr "NumberParseException") := by
  intro st now ext h
  refine ⟨?_, ?_, rfl⟩ <;>
    simp [InvestigationModule.execute, InvestigationModule.check_rate_limit, h,
      PhoneNumberModule.body]

/-- C9 amended witness: the initial module state at time `0`. -/
theorem C9_amended_invalid_marker_witness :
    (InvestigationModule.execute "phone_info" ModuleRateState.init 0
        (PhoneNumberModule.body ParseOutcome.parsedInvalid ⟨"US", "AT&T", [], "", "Mobile"⟩)
      = Except.ok (PhoneInfoReturn.errorField "Invalid phone number")) ∧
    (InvestigationModule.execute "phone_info" ModuleRateState.init 0
        (PhoneNumberModule.body ParseOutcome.unparsable ⟨"US", "AT&T", [], "", "Mobile"⟩)
      = Except.error "NumberParseException") := by
  have h := C9_amended_invalid_marker ModuleRateState.init 0
    ⟨"US", "AT&T", [], "", "Mobile"⟩ rfl
  exact ⟨h.1, h.2.1⟩

/-- C10: the module-level rate-limit error branch is dead code in the
orchestration pipeline: starting from the constructed module state, every
sequence of pipeline operations (the only operation ever applied to an
instance is `execute`, which does not write the flag, and no code calls
`handle_rate_limit`) keeps `rate_limited` false, so `check_rate_limit`
always returns ok and `execute` never fails with the module-rate-limited
error: its outcome is exactly the outcome of the module body. -/
theorem C10_module_rate_limit_branch_unreachable :
    ∀ (ops : List PipelineOp) (name : String) (now : ℚ),
      (runPipeline ModuleRateState.init ops).rate_limited = false ∧
      (InvestigationModule.check_rate_limit name (runPipeline ModuleRateState.init ops) now
        = Except.ok true) ∧
      (∀ (α : Type) (body : Except String α),
        InvestigationModule.execute name (runPipeline ModuleRateState.init ops) now body
          = body) := by
  have hrun : ∀ (ops : List PipelineOp) (st : ModuleRateState),
      runPipeline st ops = st := by
    intro ops
    induction ops with
    | nil => intro st; rfl
    | cons op rest ih => intro st; exact ih st
  intro ops name now
  have hflag : (runPipeline ModuleRateState.init ops).rate_limited = false := by
    rw [hrun]
    rfl
  have hcheck : InvestigationModule.check_rate_limit name
      (runPipeline ModuleRateState.init ops) now = Except.ok true := by
    unfold InvestigationModule.check_rate_limit
    rw [if_neg]
    rintro ⟨h1, _⟩
    rw [hflag] at h1
    exact Bool.noConfusion h1
  refine ⟨hflag, hcheck, ?_⟩
  intro α body
  unfold InvestigationModule.execute
  rw [hcheck]

/-- Sanity contrast for the rate-limit model: had `handle_rate_limit`
ever been called, the check would raise while the reset instant is in the
future. -/
lemma check_rate_limit_errors_after_handle :
    InvestigationModule.check_rate_limit "m"
        (InvestigationModule.handle_rate_limit ModuleRateState.init 0 60) 30
      = Except.error "Module m is rate limited. Try again later." := by
  have h30 : (30 : ℚ) < 60 := by norm_num
  simp [InvestigationModule.check_rate_limit, InvestigationModule.handle_rate_limit, h30]

end PhoneInvest
